import Mathlib

/-!
# Verification of `Folder Automation/create_folders.py`

A shallow embedding of the folder-replication tool.  The program walks a
Google Drive "template" folder tree and reconstructs it under a freshly
created destination folder, copying files (with one conditional rename)
and creating folders.

Modelling decisions:

* The remote Drive service is modelled by an `Oracle`: for each primitive
  remote call (`files().list`, `files().create`, `files().copy`) the oracle
  says whether the raw call fails (and with which raw error text), and
  supplies the service-chosen identifier returned by the n-th successful
  create/copy call.  The tree reachable from the template folder id is
  given as a rose tree `TNode`; a node's `id` field is the Drive id the
  program passes around, and listing a folder returns its non-trashed
  children (the query in `list_folder_contents` is
  `'<id>' in parents and trashed=false`).
* The configuration dict (`config.json`) is modelled by `Config` with one
  `Option String` field per key the program reads.  A `none` field models a
  missing key: the Python dict access raises `KeyError(k)` at the use
  site, whose `str` is the single-quoted key.
* Exceptions are modelled with `Except String`; the `try/except` at the
  bottom of `create_client_folder_structure` turns an error into the
  failure dict.  Python dicts returned to the caller are modelled as
  ordered association lists `List (String × JVal)`.
* Every remote call issued is recorded, in order, as an `Ev` trace event
  carrying the call's arguments and its outcome.  The `origName` field of
  `Ev.copy` and the `DNode` ghost output (the destination subtree actually
  built) are specification-only bookkeeping; they record data the program
  had in hand when it issued the call.
-/

namespace GWS

/-- The mimeType string that marks a Drive item as a folder
(`create_folders.py` line 81). -/
def folderMime : String := "application/vnd.google-apps.folder"

/-- One node of the remote folder graph below the template folder.
`trashed` items are excluded server-side by the listing query.
Files (any non-folder mimeType) may formally carry children;
the program never lists them. -/
inductive TNode where
  | mk (id name mimeType : String) (trashed : Bool) (children : List TNode)

def TNode.id : TNode → String
  | .mk i _ _ _ _ => i

def TNode.name : TNode → String
  | .mk _ n _ _ _ => n

def TNode.mimeType : TNode → String
  | .mk _ _ m _ _ => m

def TNode.trashed : TNode → Bool
  | .mk _ _ _ b _ => b

def TNode.children : TNode → List TNode
  | .mk _ _ _ _ ch => ch

/-- An item descriptor as returned by `files().list`
(fields `id, name, mimeType`, line 74). -/
structure Item where
  id : String
  name : String
  mimeType : String
deriving DecidableEq

def toItem (t : TNode) : Item :=
  ⟨t.id, t.name, t.mimeType⟩

/-- The raw result of the listing call on a folder with the given children:
the query excludes trashed items (`trashed=false`, line 71). -/
def listedItems (children : List TNode) : List Item :=
  (children.filter (fun c => !c.trashed)).map toItem

/-- The client-side partition loop of `list_folder_contents`
(lines 77-85): items whose mimeType equals `folderMime` go to the
`folders` list, all others to the `files` list, preserving listing order.
Returns `(files, folders)` as the Python function does (line 86). -/
def partitionItems : List Item → List Item × List Item
  | [] => ([], [])
  | i :: rest =>
      let p := partitionItems rest
      if i.mimeType == folderMime then (p.1, i :: p.2) else (i :: p.1, p.2)

/-- The parsed `config.json`, flattened: each field models the chained
dict lookup `config['folder_structure'][k]` or `config['google_drive'][k]`;
`none` models the key being absent. -/
structure Config where
  user_list_original_name : Option String
  user_list_suffix : Option String
  main_folder_suffix : Option String
  destination_folder_id : Option String
  template_folder_id : Option String

/-- Python dict access `config[...][k]`: a present key yields its value, a
missing key raises `KeyError(k)`, whose `str(...)` is the quoted key. -/
def cfgGet (v : Option String) (k : String) : Except String String :=
  match v with
  | some s => .ok s
  | none => .error ("'" ++ k ++ "'")

/-- The remote Drive service's disposition: whether each raw call fails
(with which raw error text), and the id the service assigns to the
n-th successful create/copy call. -/
structure Oracle where
  listErr : String → Option String
  createErr : String → String → Option String
  copyErr : String → String → String → Option String
  newId : Nat → String

/-- One remote call, in issue order, with its outcome.  `origName` on
`copy` is ghost data: the source file's name, from which the program
computed `newName`. -/
inductive Ev where
  | list (folderId : String) (err : Option String)
  | create (name parentId : String) (res : Except String String)
  | copy (fileId origName newName parentId : String) (res : Except String String)

/-- Did the remote call succeed? -/
def evOk : Ev → Bool
  | .list _ err => err.isNone
  | .create _ _ (.ok _) => true
  | .create _ _ (.error _) => false
  | .copy _ _ _ _ (.ok _) => true
  | .copy _ _ _ _ (.error _) => false

/-- The destination parent id an event writes into, if any
(listing reads the source side and has none). -/
def evParent : Ev → Option String
  | .list _ _ => none
  | .create _ p _ => some p
  | .copy _ _ _ p _ => some p

/-- Ghost record of one object created on the destination side. -/
inductive DNode where
  | file (id name : String)
  | folder (id name : String) (children : List DNode)

/-- Result of a recursive copy: the remote calls issued (in order) and
either the raised exception's message or the next fresh-id counter
together with the destination children built. -/
abbrev CopyRes := List Ev × Except String (Nat × List DNode)

/-- The `for file_item in files:` loop of `copy_folder_contents`
(lines 95-106).  Per file: read `user_list_original_name` from config
(line 100, may raise `KeyError`); if the name matches, read
`user_list_suffix` (line 101) and rename to `company_name ++ suffix`,
else keep the original name (line 103); then `copy_file`
(lines 50-65: a failing raw copy raises
`Failed to copy file '<new_name>': <cause>`). -/
def copyFilesLoop (cfg : Config) (company : String) (O : Oracle) (dstId : String) :
    List Item → Nat → CopyRes
  | [], ctr => ([], .ok (ctr, []))
  | f :: rest, ctr =>
    match cfgGet cfg.user_list_original_name "user_list_original_name" with
    | .error e => ([], .error e)
    | .ok uln =>
      match
        (if f.name == uln then
          match cfgGet cfg.user_list_suffix "user_list_suffix" with
          | .error e => Except.error e
          | .ok suf => Except.ok (company ++ suf)
        else Except.ok f.name : Except String String) with
      | .error e => ([], .error e)
      | .ok newName =>
        match O.copyErr f.id newName dstId with
        | some e =>
            ([Ev.copy f.id f.name newName dstId (.error e)],
             .error ("Failed to copy file '" ++ newName ++ "': " ++ e))
        | none =>
            let nid := O.newId ctr
            let r := copyFilesLoop cfg company O dstId rest (ctr + 1)
            (Ev.copy f.id f.name newName dstId (.ok nid) :: r.1,
             match r.2 with
             | .error e => .error e
             | .ok (c2, ds) => .ok (c2, DNode.file nid newName :: ds))

mutual
/-- `copy_folder_contents(source_folder_id, destination_folder_id,
company_name)` (lines 90-117), with the source folder resolved to its tree
node `t` (so `t.id` is `source_folder_id`).  First the listing call
(line 92; a failing raw list raises
`Failed to list folder contents: <cause>`, line 88), whose result is
partitioned by `list_folder_contents`; then the file loop over the
`files` partition; then the folder loop. -/
def copyContents (cfg : Config) (company : String) (O : Oracle) :
    TNode → String → Nat → CopyRes
  | .mk i _ _ _ ch, dstId, ctr =>
    match O.listErr i with
    | some e => ([Ev.list i (some e)], .error ("Failed to list folder contents: " ++ e))
    | none =>
      let files := (partitionItems (listedItems ch)).1
      let fr := copyFilesLoop cfg company O dstId files ctr
      match fr.2 with
      | .error e => (Ev.list i none :: fr.1, .error e)
      | .ok (ctr1, dFiles) =>
        let dr := copyFoldersLoop cfg company O dstId ch ctr1
        (Ev.list i none :: (fr.1 ++ dr.1),
         match dr.2 with
         | .error e => .error e
         | .ok (ctr2, dFolders) => .ok (ctr2, dFiles ++ dFolders))

/-- The `for folder_item in folders:` loop of `copy_folder_contents`
(lines 109-117), iterating the listed children and skipping those not in
the `folders` partition (trashed items are absent from the listing, and
non-folder mimeTypes were partitioned into `files`).  Per folder:
`create_folder` with the original name (line 114; a failing raw create
raises `Failed to create folder '<name>': <cause>`, line 48), then recurse
into the child with the newly returned id (line 117), then the rest of the
loop. -/
def copyFoldersLoop (cfg : Config) (company : String) (O : Oracle) (dstId : String) :
    List TNode → Nat → CopyRes
  | [], ctr => ([], .ok (ctr, []))
  | c :: rest, ctr =>
    if !c.trashed && c.mimeType == folderMime then
      match O.createErr c.name dstId with
      | some e =>
          ([Ev.create c.name dstId (.error e)],
           .error ("Failed to create folder '" ++ c.name ++ "': " ++ e))
      | none =>
        let nid := O.newId ctr
        let sub := copyContents cfg company O c nid (ctr + 1)
        match sub.2 with
        | .error e => (Ev.create c.name dstId (.ok nid) :: sub.1, .error e)
        | .ok (ctr2, subD) =>
          let rr := copyFoldersLoop cfg company O dstId rest ctr2
          (Ev.create c.name dstId (.ok nid) :: (sub.1 ++ rr.1),
           match rr.2 with
           | .error e => .error e
           | .ok (ctr3, restD) => .ok (ctr3, DNode.folder nid c.name subD :: restD))
    else
      copyFoldersLoop cfg company O dstId rest ctr
end

/-- A JSON-able dict value appearing in the result record. -/
inductive JVal where
  | b (v : Bool)
  | s (v : String)
deriving DecidableEq

/-- The success dict of `create_client_folder_structure` (lines 138-144),
keys in insertion order. -/
def successDict (org mainName mainId : String) : List (String × JVal) :=
  [("success", JVal.b true),
   ("folder_id", JVal.s mainId),
   ("folder_name", JVal.s mainName),
   ("folder_url", JVal.s ("https://drive.google.com/drive/folders/" ++ mainId)),
   ("message", JVal.s ("Successfully created folder structure for " ++ org))]

/-- The failure dict of the `except` clause (lines 147-151). -/
def failDict (org e : String) : List (String × JVal) :=
  [("success", JVal.b false),
   ("error", JVal.s e),
   ("message", JVal.s ("Failed to create folder structure for " ++ org))]

/-- `create_client_folder_structure(organization_name)` (lines 119-151),
returning the remote-call trace and the result dict.  `tmpl` is the tree
the Drive service has rooted at the configured template folder id (so a
faithful instantiation has `tmpl.id = template_folder_id`).  Config keys
are read in source order: `main_folder_suffix` (line 123),
`destination_folder_id` (line 126), `template_folder_id` (line 127); then
the main folder is created (line 129) and the recursive copy runs
(line 133).  Any raised exception is converted to the failure dict. -/
def create_client_folder_structure (cfg : Config) (O : Oracle) (tmpl : TNode)
    (org : String) : List Ev × List (String × JVal) :=
  match cfgGet cfg.main_folder_suffix "main_folder_suffix" with
  | .error e => ([], failDict org e)
  | .ok sfx =>
    let mainName := org ++ sfx
    match cfgGet cfg.destination_folder_id "destination_folder_id" with
    | .error e => ([], failDict org e)
    | .ok destId =>
      match cfgGet cfg.template_folder_id "template_folder_id" with
      | .error e => ([], failDict org e)
      | .ok _tid =>
        match O.createErr mainName destId with
        | some e =>
            ([Ev.create mainName destId (.error e)],
             failDict org ("Failed to create folder '" ++ mainName ++ "': " ++ e))
        | none =>
          let mainId := O.newId 0
          let r := copyContents cfg org O tmpl mainId 1
          (Ev.create mainName destId (.ok mainId) :: r.1,
           match r.2 with
           | .error e => failDict org e
           | .ok _ => successDict org mainName mainId)

/-! ## Specification-side definitions -/

/-- Folder-structure skeleton of a tree: folder names with nesting. -/
inductive Shape where
  | node (name : String) (children : List Shape)

mutual
/-- Folder-skeleton contribution of one source child: the children the
program recurses into (non-trashed, folder mimeType) contribute their name
and recursive skeleton, all others contribute nothing. -/
def tShapeN : TNode → List Shape
  | .mk _ n m tr ch => if !tr && m == folderMime then [Shape.node n (tShapeL ch)] else []

/-- The folder skeleton of a list of source children. -/
def tShapeL : List TNode → List Shape
  | [] => []
  | c :: rest => tShapeN c ++ tShapeL rest
end

mutual
/-- Folder-skeleton contribution of one created destination child. -/
def dShapeN : DNode → List Shape
  | .file _ _ => []
  | .folder _ n ch => [Shape.node n (dShapeL ch)]

/-- The folder skeleton of a list of created destination children. -/
def dShapeL : List DNode → List Shape
  | [] => []
  | d :: rest => dShapeN d ++ dShapeL rest
end

mutual
/-- Structural equality of shapes. -/
def shapeBeq : Shape → Shape → Bool
  | .node n ch, .node n' ch' => n == n' && shapeBeqL ch ch'

/-- Structural equality of shape lists. -/
def shapeBeqL : List Shape → List Shape → Bool
  | [], [] => true
  | s :: r, s' :: r' => shapeBeq s s' && shapeBeqL r r'
  | _, _ => false
end

mutual
/-- A structural size of a tree bounding the number of remote calls a copy
of it can issue: one for its listing plus, per child, one call and the
child's own bound. -/
def evBound : TNode → Nat
  | .mk _ _ _ _ ch => 1 + ch.length + evBoundL ch

/-- Sum of per-child remote-call bounds. -/
def evBoundL : List TNode → Nat
  | [] => 0
  | c :: rest => 1 + evBound c + evBoundL rest
end

/-- The fresh ids returned by an event, available as parents afterwards:
only a successful folder creation yields a usable parent id. -/
def evNewIds : Ev → List String
  | .list _ _ => []
  | .create _ _ (.ok i) => [i]
  | .create _ _ (.error _) => []
  | .copy _ _ _ _ _ => []

/-- All folder ids successfully created along a trace, in order. -/
def newIdsL : List Ev → List String
  | [] => []
  | ev :: rest => evNewIds ev ++ newIdsL rest

/-- Parent-availability check over a trace: scanning left to right, every
create/copy call's destination parent must already be in the available set
`S`, which starts as the given roots and grows by each successful
create-folder call's returned id. -/
def parentsOkB (S : List String) : List Ev → Bool
  | [] => true
  | ev :: rest =>
    (match evParent ev with
     | none => true
     | some p => S.contains p) && parentsOkB (S ++ evNewIds ev) rest

/-- Is the event a (successful or failed) create-folder call placing a
child directly under parent `p`? -/
def isCreateUnder (p : String) : Ev → Bool
  | .list _ _ => false
  | .create _ q _ => q == p
  | .copy _ _ _ _ _ => false

/-- Substring test (used to state what an error message contains). -/
def strContainsB (s sub : String) : Bool :=
  decide (sub.data <:+: s.data)

/-- Dict lookup on the modelled Python result record. -/
def dictGet (k : String) (d : List (String × JVal)) : Option JVal :=
  match d with
  | [] => none
  | (k', v) :: rest => if k' == k then some v else dictGet k rest

/-! ## Concrete fixtures used by witnesses and counterexamples -/

/-- A fully populated configuration (the spec's illustrative values). -/
def cfgA : Config :=
  ⟨some "Authorized Users.xlsx", some " - Authorized Users.xlsx",
   some " - Client Folder", some "DEST", some "TPL"⟩

/-- A configuration whose `user_list_original_name` key is missing. -/
def cfgNoUln : Config :=
  ⟨none, some " - Authorized Users.xlsx", some " - Client Folder", some "DEST", some "TPL"⟩

/-- A configuration whose `main_folder_suffix` key is missing. -/
def cfgNoMfs : Config :=
  ⟨some "Authorized Users.xlsx", some " - Authorized Users.xlsx", none,
   some "DEST", some "TPL"⟩

/-- An all-success remote service assigning ids N0, N1, ... -/
def okOracle : Oracle :=
  ⟨fun _ => none, fun _ _ => none, fun _ _ _ => none, fun n => "N" ++ toString n⟩

/-- A remote service on which listing the template folder `TPL` fails with
a permission error; all other calls succeed. -/
def permOracle : Oracle :=
  ⟨fun fid => if fid == "TPL" then some "permission denied" else none,
   fun _ _ => none, fun _ _ _ => none, fun n => "N" ++ toString n⟩

/-- The spec's scenario template tree: `ReadMe.txt`,
`Authorized Users.xlsx` and a subfolder `Forms` containing `FormA.pdf`. -/
def tmplA : TNode :=
  .mk "TPL" "Template" folderMime false
    [.mk "f1" "ReadMe.txt" "text/plain" false [],
     .mk "f2" "Authorized Users.xlsx" "application/vnd.ms-excel" false [],
     .mk "d1" "Forms" folderMime false [.mk "f3" "FormA.pdf" "application/pdf" false []]]

/-! ## Helper lemmas -/

theorem mem_dropLast_append {α : Type} {l₁ l₂ : List α} {x : α}
    (h : x ∈ (l₁ ++ l₂).dropLast) : x ∈ l₁ ∨ x ∈ l₂.dropLast := by
  rw [List.dropLast_append] at h
  by_cases he : l₂.isEmpty = true
  · rw [if_pos he] at h
    exact Or.inl (List.mem_of_mem_dropLast h)
  · rw [if_neg he] at h
    exact List.mem_append.1 h

theorem mem_dropLast_cons {α : Type} {a x : α} {l : List α}
    (h : x ∈ (a :: l).dropLast) : x = a ∨ x ∈ l.dropLast := by
  have h' : x ∈ ([a] ++ l).dropLast := by simpa using h
  rcases mem_dropLast_append h' with h1 | h2
  · exact Or.inl (by simpa using h1)
  · exact Or.inr h2

/-- The client-side partition is a pair of filters on the listed items. -/
theorem partitionItems_eq (l : List Item) :
    partitionItems l =
      (l.filter (fun i => !(i.mimeType == folderMime)),
       l.filter (fun i => i.mimeType == folderMime)) := by
  induction l with
  | nil => rfl
  | cons i rest ih =>
    simp only [partitionItems, ih, List.filter_cons]
    cases h : (i.mimeType == folderMime) <;> simp [h]

/-- The children the folder loop recurses into are exactly the `folders`
partition of the listing. -/
theorem folders_partition (children : List TNode) :
    (children.filter (fun c => !c.trashed && c.mimeType == folderMime)).map toItem
      = (partitionItems (listedItems children)).2 := by
  rw [partitionItems_eq]
  simp only [listedItems]
  induction children with
  | nil => rfl
  | cons c rest ih =>
    cases htr : c.trashed <;> cases hm : (c.mimeType == folderMime) <;>
      simp [List.filter_cons, htr, hm, toItem, ih]

/-- The result dict of a run is the failure dict or the success dict. -/
theorem result_dict_cases (cfg : Config) (O : Oracle) (tmpl : TNode) (org : String) :
    (∃ e, (create_client_folder_structure cfg O tmpl org).2 = failDict org e)
    ∨ (∃ n i, (create_client_folder_structure cfg O tmpl org).2 = successDict org n i) := by
  unfold create_client_folder_structure
  dsimp only
  repeat' split
  all_goals first
    | exact Or.inl ⟨_, rfl⟩
    | exact Or.inr ⟨_, _, rfl⟩

/-- Every copy call issued by the file loop carries the target name the
rename rule computes from the file's original name. -/
theorem copyFilesLoop_names (cfg : Config) (company : String) (O : Oracle) (dstId : String)
    (uln uls : String) (h1 : cfg.user_list_original_name = some uln)
    (h2 : cfg.user_list_suffix = some uls) :
    ∀ (files : List Item) (ctr : Nat) (fid o nn p : String) (res : Except String String),
      Ev.copy fid o nn p res ∈ (copyFilesLoop cfg company O dstId files ctr).1 →
      nn = if o == uln then company ++ uls else o := by
  intro files
  induction files with
  | nil =>
    intro ctr fid o nn p res h
    simp [copyFilesLoop] at h
  | cons f rest ih =>
    intro ctr fid o nn p res hmem
    rw [copyFilesLoop, h1] at hmem
    simp only [cfgGet] at hmem
    by_cases hf : (f.name == uln) = true
    · rw [if_pos hf, h2] at hmem
      simp only [cfgGet] at hmem
      rcases hc : O.copyErr f.id (company ++ uls) dstId with _ | e
      · rw [hc] at hmem
        simp only [List.mem_cons] at hmem
        rcases hmem with heq | hmem
        · cases heq
          simp [hf]
        · exact ih _ _ _ _ _ _ hmem
      · rw [hc] at hmem
        simp only [List.mem_singleton] at hmem
        cases hmem
        simp [hf]
    · rw [if_neg hf] at hmem
      dsimp only at hmem
      rcases hc : O.copyErr f.id f.name dstId with _ | e
      · rw [hc] at hmem
        simp only [List.mem_cons] at hmem
        rcases hmem with heq | hmem
        · cases heq
          simp [hf]
        · exact ih _ _ _ _ _ _ hmem
      · rw [hc] at hmem
        simp only [List.mem_singleton] at hmem
        cases hmem
        simp [hf]

/-- Every copy call issued anywhere in the recursive copy carries the
target name the rename rule computes from the file's original name. -/
theorem copyContents_names (cfg : Config) (company : String) (O : Oracle)
    (uln uls : String) (h1 : cfg.user_list_original_name = some uln)
    (h2 : cfg.user_list_suffix = some uls) (t : TNode) (dstId : String) (ctr : Nat) :
    ∀ (fid o nn p : String) (res : Except String String),
      Ev.copy fid o nn p res ∈ (copyContents cfg company O t dstId ctr).1 →
      nn = if o == uln then company ++ uls else o := by
  refine copyContents.induct cfg company O
    (fun t d c => ∀ (fid o nn p : String) (res : Except String String),
      Ev.copy fid o nn p res ∈ (copyContents cfg company O t d c).1 →
      nn = if o == uln then company ++ uls else o)
    (fun d l c => ∀ (fid o nn p : String) (res : Except String String),
      Ev.copy fid o nn p res ∈ (copyFoldersLoop cfg company O d l c).1 →
      nn = if o == uln then company ++ uls else o)
    ?_ ?_ ?_ ?_ ?_ ?_ ?_ ?_ t dstId ctr
  · intro i name mime tr ch d c s hs fid o nn p res hmem
    simp [copyContents, hs] at hmem
  · intro i name mime tr ch d c hl files fr e hfr fid o nn p res hmem
    simp only [copyContents, hl] at hmem
    rw [hfr] at hmem
    simp only [List.mem_cons] at hmem
    rcases hmem with heq | hmem
    · cases heq
    · exact copyFilesLoop_names cfg company O d uln uls h1 h2 _ _ _ _ _ _ _ hmem
  · intro i name mime tr ch d c hl files fr c2 ds hfr ih fid o nn p res hmem
    simp only [copyContents, hl] at hmem
    rw [hfr] at hmem
    simp only [List.mem_cons, List.mem_append] at hmem
    rcases hmem with heq | hmem | hmem
    · cases heq
    · exact copyFilesLoop_names cfg company O d uln uls h1 h2 _ _ _ _ _ _ _ hmem
    · exact ih _ _ _ _ _ hmem
  · intro d c fid o nn p res hmem
    simp [copyFoldersLoop] at hmem
  · intro d c rest ctr hcond s hs fid o nn p res hmem
    simp [copyFoldersLoop, hcond, hs] at hmem
  · intro d c rest ctr hcond hcr nid sub e hsub ih fid o nn p res hmem
    simp only [copyFoldersLoop, hcond, hcr, if_pos] at hmem
    rw [hsub] at hmem
    simp only [List.mem_cons] at hmem
    rcases hmem with heq | hmem
    · cases heq
    · exact ih _ _ _ _ _ hmem
  · intro d c rest ctr hcond hcr nid sub c2 ds hsub ih1 ih2 fid o nn p res hmem
    simp only [copyFoldersLoop, hcond, hcr, if_pos] at hmem
    rw [hsub] at hmem
    simp only [List.mem_cons, List.mem_append] at hmem
    rcases hmem with heq | hmem | hmem
    · cases heq
    · exact ih1 _ _ _ _ _ hmem
    · exact ih2 _ _ _ _ _ hmem
  · intro d c rest ctr hcond ih fid o nn p res hmem
    rw [copyFoldersLoop] at hmem
    rw [if_neg hcond] at hmem
    exact ih _ _ _ _ _ hmem

theorem dShapeL_append (a b : List DNode) : dShapeL (a ++ b) = dShapeL a ++ dShapeL b := by
  induction a with
  | nil => rfl
  | cons d rest ih => simp [dShapeL, ih]

/-- The file loop only creates file copies: no folder skeleton. -/
theorem copyFilesLoop_shape (cfg : Config) (company : String) (O : Oracle) (dstId : String) :
    ∀ (files : List Item) (ctr c2 : Nat) (ds : List DNode),
      (copyFilesLoop cfg company O dstId files ctr).2 = .ok (c2, ds) → dShapeL ds = [] := by
  intro files
  induction files with
  | nil =>
    intro ctr c2 ds h
    simp only [copyFilesLoop] at h
    cases h
    rfl
  | cons f rest ih =>
    intro ctr c2 ds h
    rw [copyFilesLoop] at h
    rcases hg : cfgGet cfg.user_list_original_name "user_list_original_name" with e | uln
    · rw [hg] at h; cases h
    · rw [hg] at h
      dsimp only at h
      by_cases hf : (f.name == uln) = true
      · rw [if_pos hf] at h
        rcases hs : cfgGet cfg.user_list_suffix "user_list_suffix" with e | suf
        · rw [hs] at h; cases h
        · rw [hs] at h
          dsimp only at h
          rcases hc : O.copyErr f.id (company ++ suf) dstId with _ | e
          · rw [hc] at h
            dsimp only at h
            rcases hr : (copyFilesLoop cfg company O dstId rest (ctr + 1)).2 with e | ⟨cc, dd⟩
            · rw [hr] at h; cases h
            · rw [hr] at h
              cases h
              simpa [dShapeL, dShapeN] using ih _ _ _ hr
          · rw [hc] at h; cases h
      · rw [if_neg hf] at h
        dsimp only at h
        rcases hc : O.copyErr f.id f.name dstId with _ | e
        · rw [hc] at h
          dsimp only at h
          rcases hr : (copyFilesLoop cfg company O dstId rest (ctr + 1)).2 with e | ⟨cc, dd⟩
          · rw [hr] at h; cases h
          · rw [hr] at h
            cases h
            simpa [dShapeL, dShapeN] using ih _ _ _ hr
        · rw [hc] at h; cases h

/-- A successful recursive copy reproduces the source folder skeleton. -/
theorem copyContents_shape (cfg : Config) (company : String) (O : Oracle)
    (t : TNode) (dstId : String) (ctr : Nat) :
    ∀ (c2 : Nat) (ds : List DNode),
      (copyContents cfg company O t dstId ctr).2 = .ok (c2, ds) →
      dShapeL ds = tShapeL t.children := by
  refine copyContents.induct cfg company O
    (fun t d c => ∀ (c2 : Nat) (ds : List DNode),
      (copyContents cfg company O t d c).2 = .ok (c2, ds) → dShapeL ds = tShapeL t.children)
    (fun d l c => ∀ (c2 : Nat) (ds : List DNode),
      (copyFoldersLoop cfg company O d l c).2 = .ok (c2, ds) → dShapeL ds = tShapeL l)
    ?_ ?_ ?_ ?_ ?_ ?_ ?_ ?_ t dstId ctr
  · intro i name mime tr ch d c s hs c2 ds h
    simp [copyContents, hs] at h
  · intro i name mime tr ch d c hl files fr e hfr c2 ds h
    simp only [copyContents, hl] at h
    rw [hfr] at h
    cases h
  · intro i name mime tr ch d c hl files fr c2 ds hfr ih c2' ds' h
    simp only [copyContents, hl] at h
    rw [hfr] at h
    dsimp only at h
    rcases hdr : (copyFoldersLoop cfg company O d ch c2).2 with e | ⟨ctr2, dFolders⟩
    · rw [hdr] at h; cases h
    · rw [hdr] at h
      cases h
      rw [dShapeL_append, copyFilesLoop_shape cfg company O d _ _ _ _ hfr, ih _ _ hdr]
      simp [TNode.children]
  · intro d c c2 ds h
    simp only [copyFoldersLoop] at h
    cases h
    rfl
  · intro d c rest ctr hcond s hs c2 ds h
    simp [copyFoldersLoop, hcond, hs] at h
  · intro d c rest ctr hcond hcr nid sub e hsub ih c2 ds h
    simp only [copyFoldersLoop, hcond, hcr, if_pos] at h
    rw [hsub] at h
    cases h
  · intro d c rest ctr hcond hcr nid sub c2 ds hsub ih1 ih2 c2' ds' h
    simp only [copyFoldersLoop, hcond, hcr, if_pos] at h
    rw [hsub] at h
    dsimp only at h
    rcases hrr : (copyFoldersLoop cfg company O d rest c2).2 with e | ⟨ctr3, restD⟩
    · rw [hrr] at h; cases h
    · rw [hrr] at h
      cases h
      obtain ⟨ci, cn, cm, ctr', cch⟩ := c
      simp only [TNode.trashed, TNode.mimeType, TNode.name] at hcond ⊢
      simp only [tShapeL, tShapeN, hcond, if_pos]
      rw [dShapeL, dShapeN, ih1 _ _ hsub, ih2 _ _ hrr]
      simp [TNode.children]
  · intro d c rest ctr hcond ih c2 ds h
    rw [copyFoldersLoop] at h
    rw [if_neg hcond] at h
    obtain ⟨ci, cn, cm, ctr', cch⟩ := c
    simp only [TNode.trashed, TNode.mimeType] at hcond
    simp only [tShapeL, tShapeN]
    rw [if_neg hcond]
    exact ih _ _ h

/-! ## Claim theorems -/

/-- C10: `list_folder_contents` classifies a listed child as a folder iff
its mimeType equals `application/vnd.google-apps.folder`; every other
child lands in the `files` partition (and is therefore handed to the
`copy_file` loop, which `copyContents` feeds with exactly
`(partitionItems …).1`, while the folder loop recurses into exactly the
`folders` partition — last conjunct); and the two partitions together are
a permutation of the non-trashed children returned by the listing. -/
theorem listing_partition_correct (children : List TNode) :
    (partitionItems (listedItems children)).2
        = (listedItems children).filter (fun i => i.mimeType == folderMime)
    ∧ (partitionItems (listedItems children)).1
        = (listedItems children).filter (fun i => !(i.mimeType == folderMime))
    ∧ ((partitionItems (listedItems children)).1
        ++ (partitionItems (listedItems children)).2).Perm (listedItems children)
    ∧ (children.filter (fun c => !c.trashed && c.mimeType == folderMime)).map toItem
        = (partitionItems (listedItems children)).2 := by
  refine ⟨?_, ?_, ?_, folders_partition children⟩
  · rw [partitionItems_eq]
  · rw [partitionItems_eq]
  · rw [partitionItems_eq]
    simpa using
      List.filter_append_perm (fun i => !(i.mimeType == folderMime)) (listedItems children)

/-- C9: whenever `create_client_folder_structure` fails (the returned dict
maps `success` to `False`), the result dict has exactly the keys
`success`, `error`, `message`, in that order; in particular `folder_id`,
`folder_name` and `folder_url` are entirely absent rather than null. -/
theorem failure_result_keys (cfg : Config) (O : Oracle) (tmpl : TNode) (org : String)
    (h : dictGet "success" (create_client_folder_structure cfg O tmpl org).2
          = some (JVal.b false)) :
    (create_client_folder_structure cfg O tmpl org).2.map Prod.fst
      = ["success", "error", "message"]
    ∧ dictGet "folder_id" (create_client_folder_structure cfg O tmpl org).2 = none
    ∧ dictGet "folder_name" (create_client_folder_structure cfg O tmpl org).2 = none
    ∧ dictGet "folder_url" (create_client_folder_structure cfg O tmpl org).2 = none := by
  rcases result_dict_cases cfg O tmpl org with ⟨e, he⟩ | ⟨n, i, hs⟩
  · rw [he]
    exact ⟨rfl, rfl, rfl, rfl⟩
  · rw [hs] at h
    simp [successDict, dictGet] at h

/-- Witness for C9 at a concrete failing run: listing the template folder
fails with a permission error, `success` is `False` and the keys are
exactly `success`, `error`, `message`. -/
theorem failure_result_keys_witness :
    dictGet "success" (create_client_folder_structure cfgA permOracle tmplA "Acme").2
        = some (JVal.b false)
    ∧ (create_client_folder_structure cfgA permOracle tmplA "Acme").2.map Prod.fst
        = ["success", "error", "message"] :=
  ⟨rfl, (failure_result_keys cfgA permOracle tmplA "Acme" rfl).1⟩

/-- C1: every copy-file call issued during a run of
`create_client_folder_structure` names its copy by the rename rule: the
configured `user_list_original_name` becomes
`organization_name ++ user_list_suffix`, every other file keeps its
original name.  The target name is a function of the original name alone
(the right-hand side does not mention the file's position), and in an
all-success run every file of the template is copied exactly this way. -/
theorem rename_rule_applied (cfg : Config) (O : Oracle) (tmpl : TNode) (org : String)
    (uln uls : String) (h1 : cfg.user_list_original_name = some uln)
    (h2 : cfg.user_list_suffix = some uls)
    (fid o nn p : String) (res : Except String String)
    (hmem : Ev.copy fid o nn p res ∈ (create_client_folder_structure cfg O tmpl org).1) :
    nn = if o == uln then org ++ uls else o := by
  unfold create_client_folder_structure at hmem
  dsimp only at hmem
  rcases hm : cfgGet cfg.main_folder_suffix "main_folder_suffix" with e | sfx
  · rw [hm] at hmem; simp at hmem
  · rw [hm] at hmem
    dsimp only at hmem
    rcases hd : cfgGet cfg.destination_folder_id "destination_folder_id" with e | destId
    · rw [hd] at hmem; simp at hmem
    · rw [hd] at hmem
      dsimp only at hmem
      rcases ht : cfgGet cfg.template_folder_id "template_folder_id" with e | tid
      · rw [ht] at hmem; simp at hmem
      · rw [ht] at hmem
        dsimp only at hmem
        rcases hc : O.createErr (org ++ sfx) destId with _ | e
        · rw [hc] at hmem
          dsimp only at hmem
          simp only [List.mem_cons] at hmem
          rcases hmem with heq | hmem
          · cases heq
          · exact copyContents_names cfg org O uln uls h1 h2 tmpl (O.newId 0) 1
              _ _ _ _ _ hmem
        · rw [hc] at hmem
          simp only [List.mem_singleton] at hmem
          cases hmem

/-- Witness for C1: in the scenario run, `Authorized Users.xlsx` is copied
as `Acme - Authorized Users.xlsx`, per the rule. -/
theorem rename_rule_applied_witness :
    cfgA.user_list_original_name = some "Authorized Users.xlsx"
    ∧ cfgA.user_list_suffix = some " - Authorized Users.xlsx"
    ∧ Ev.copy "f2" "Authorized Users.xlsx" "Acme - Authorized Users.xlsx" "N0"
        (Except.ok "N2") ∈ (create_client_folder_structure cfgA okOracle tmplA "Acme").1
    ∧ "Acme - Authorized Users.xlsx"
        = if ("Authorized Users.xlsx" == "Authorized Users.xlsx")
          then "Acme" ++ " - Authorized Users.xlsx" else "Authorized Users.xlsx" := by
  have hmem : Ev.copy "f2" "Authorized Users.xlsx" "Acme - Authorized Users.xlsx" "N0"
      (Except.ok "N2") ∈ (create_client_folder_structure cfgA okOracle tmplA "Acme").1 :=
    List.Mem.tail _ (List.Mem.tail _ (List.Mem.tail _ (List.Mem.head _)))
  exact ⟨rfl, rfl, hmem,
    rename_rule_applied cfgA okOracle tmplA "Acme" _ _ rfl rfl _ _ _ _ _ hmem⟩

/-- C2: an all-success recursive copy (as invoked by
`create_client_folder_structure` on the template and the fresh main
folder) produces a destination whose folder skeleton — folder names with
nesting, files ignored — equals the template's: each source subfolder
corresponds to exactly one created folder of the same name at the same
relative position, and no folder name is altered. -/
theorem folder_structure_replicated (cfg : Config) (company : String) (O : Oracle)
    (t : TNode) (dstId : String) (ctr c2 : Nat) (ds : List DNode)
    (h : (copyContents cfg company O t dstId ctr).2 = .ok (c2, ds)) :
    dShapeL ds = tShapeL t.children :=
  copyContents_shape cfg company O t dstId ctr c2 ds h

/-- Witness for C2: the scenario run succeeds and the created destination
(two files and a `Forms` folder containing a file) has the template's
folder skeleton. -/
theorem folder_structure_replicated_witness :
    (copyContents cfgA "Acme" okOracle tmplA "N0" 1).2
        = Except.ok (5, [DNode.file "N1" "ReadMe.txt",
                         DNode.file "N2" "Acme - Authorized Users.xlsx",
                         DNode.folder "N3" "Forms" [DNode.file "N4" "FormA.pdf"]])
    ∧ dShapeL [DNode.file "N1" "ReadMe.txt",
               DNode.file "N2" "Acme - Authorized Users.xlsx",
               DNode.folder "N3" "Forms" [DNode.file "N4" "FormA.pdf"]]
        = tShapeL tmplA.children :=
  ⟨rfl, folder_structure_replicated cfgA "Acme" okOracle tmplA "N0" 1 5 _ rfl⟩

theorem append_ne_empty (p s : String) (hp : p ≠ "") : p ++ s ≠ "" := by
  intro h
  apply hp
  have hd : p.data ++ s.data = [] := by
    simpa [String.data_append] using congrArg String.data h
  apply String.ext
  simpa using (List.append_eq_nil.1 hd).1

/-- A failed config read raises a `KeyError` with a nonempty message. -/
theorem cfgGet_error_ne (v : Option String) (k e : String) (h : cfgGet v k = .error e) :
    e ≠ "" := by
  cases v with
  | none =>
    simp only [cfgGet] at h
    cases h
    exact append_ne_empty _ _ (append_ne_empty _ _ (by decide))
  | some s => simp [cfgGet] at h

/-- Fail-fast facts about the file loop: at most the last event failed, a
successful loop issued only successful calls, a raised error is nonempty. -/
theorem copyFilesLoop_failfast (cfg : Config) (company : String) (O : Oracle) (dstId : String) :
    ∀ (files : List Item) (ctr : Nat),
      (∀ ev ∈ (copyFilesLoop cfg company O dstId files ctr).1.dropLast, evOk ev = true)
      ∧ (∀ c ds, (copyFilesLoop cfg company O dstId files ctr).2 = .ok (c, ds) →
          ∀ ev ∈ (copyFilesLoop cfg company O dstId files ctr).1, evOk ev = true)
      ∧ (∀ e, (copyFilesLoop cfg company O dstId files ctr).2 = .error e → e ≠ "") := by
  intro files
  induction files with
  | nil =>
    intro ctr
    refine ⟨?_, ?_, ?_⟩
    · intro ev h; simp [copyFilesLoop] at h
    · intro c ds _ ev h; simp [copyFilesLoop] at h
    · intro e h; simp only [copyFilesLoop] at h; cases h
  | cons f rest ih =>
    intro ctr
    rw [copyFilesLoop]
    cases hg : cfgGet cfg.user_list_original_name "user_list_original_name" with
    | error e =>
      refine ⟨?_, ?_, ?_⟩
      · intro ev h; simp at h
      · intro c ds hok; cases hok
      · intro e' he'; cases he'; exact cfgGet_error_ne _ _ _ hg
    | ok uln =>
      dsimp only
      cases hn : (if (f.name == uln) = true then
            match cfgGet cfg.user_list_suffix "user_list_suffix" with
            | .error e => Except.error e
            | .ok suf => Except.ok (company ++ suf)
          else Except.ok f.name : Except String String) with
      | error e =>
        dsimp only
        refine ⟨?_, ?_, ?_⟩
        · intro ev h; simp at h
        · intro c ds hok; cases hok
        · intro e' he'
          cases he'
          by_cases hf : (f.name == uln) = true
          · rw [if_pos hf] at hn
            cases hs : cfgGet cfg.user_list_suffix "user_list_suffix" with
            | error e2 => rw [hs] at hn; cases hn; exact cfgGet_error_ne _ _ _ hs
            | ok suf => rw [hs] at hn; cases hn
          · rw [if_neg hf] at hn; cases hn
      | ok newName =>
        dsimp only
        cases hc : O.copyErr f.id newName dstId with
        | none =>
          dsimp only
          refine ⟨?_, ?_, ?_⟩
          · intro ev h
            rcases mem_dropLast_cons h with rfl | h2
            · rfl
            · exact (ih (ctr + 1)).1 ev h2
          · intro c ds hok ev hmem
            cases hr : (copyFilesLoop cfg company O dstId rest (ctr + 1)).2 with
            | error e2 =>
              rw [hr] at hok
              dsimp only at hok
              cases hok
            | ok p =>
              obtain ⟨cc, dd⟩ := p
              rcases List.mem_cons.1 hmem with rfl | h2
              · rfl
              · exact (ih (ctr + 1)).2.1 cc dd hr ev h2
          · intro e2 he2
            cases hr : (copyFilesLoop cfg company O dstId rest (ctr + 1)).2 with
            | error e3 =>
              rw [hr] at he2
              dsimp only at he2
              cases he2
              exact (ih (ctr + 1)).2.2 _ hr
            | ok p =>
              obtain ⟨cc, dd⟩ := p
              rw [hr] at he2
              dsimp only at he2
              cases he2
        | some e =>
          dsimp only
          refine ⟨?_, ?_, ?_⟩
          · intro ev h; simp at h
          · intro c ds hok; cases hok
          · intro e2 he2
            cases he2
            exact append_ne_empty _ _ (append_ne_empty _ _ (append_ne_empty _ _ (by decide)))

/-- Fail-fast facts about the recursive copy: at most the last remote call
of the trace failed, a successful copy issued only successful calls, and a
raised error message is nonempty. -/
theorem copyContents_failfast (cfg : Config) (company : String) (O : Oracle)
    (t : TNode) (dstId : String) (ctr : Nat) :
    (∀ ev ∈ (copyContents cfg company O t dstId ctr).1.dropLast, evOk ev = true)
    ∧ (∀ c ds, (copyContents cfg company O t dstId ctr).2 = .ok (c, ds) →
        ∀ ev ∈ (copyContents cfg company O t dstId ctr).1, evOk ev = true)
    ∧ (∀ e, (copyContents cfg company O t dstId ctr).2 = .error e → e ≠ "") := by
  refine copyContents.induct cfg company O
    (fun t d c =>
      (∀ ev ∈ (copyContents cfg company O t d c).1.dropLast, evOk ev = true)
      ∧ (∀ c2 ds, (copyContents cfg company O t d c).2 = .ok (c2, ds) →
          ∀ ev ∈ (copyContents cfg company O t d c).1, evOk ev = true)
      ∧ (∀ e, (copyContents cfg company O t d c).2 = .error e → e ≠ ""))
    (fun d l c =>
      (∀ ev ∈ (copyFoldersLoop cfg company O d l c).1.dropLast, evOk ev = true)
      ∧ (∀ c2 ds, (copyFoldersLoop cfg company O d l c).2 = .ok (c2, ds) →
          ∀ ev ∈ (copyFoldersLoop cfg company O d l c).1, evOk ev = true)
      ∧ (∀ e, (copyFoldersLoop cfg company O d l c).2 = .error e → e ≠ ""))
    ?_ ?_ ?_ ?_ ?_ ?_ ?_ ?_ t dstId ctr
  · intro i name mime tr ch d c s hs
    simp only [copyContents, hs]
    refine ⟨?_, ?_, ?_⟩
    · intro ev h; simp at h
    · intro c2 ds hok; cases hok
    · intro e he
      cases he
      exact append_ne_empty _ _ (by decide)
  · intro i name mime tr ch d c hl files fr e hfr
    simp only [copyContents, hl]
    rw [hfr]
    dsimp only
    refine ⟨?_, ?_, ?_⟩
    · intro ev h
      rcases mem_dropLast_cons h with rfl | h2
      · rfl
      · exact (copyFilesLoop_failfast cfg company O d files c).1 ev h2
    · intro c2 ds hok; cases hok
    · intro e' he'
      cases he'
      exact (copyFilesLoop_failfast cfg company O d files c).2.2 _ hfr
  · intro i name mime tr ch d c hl files fr c2 ds hfr ih
    simp only [copyContents, hl]
    rw [hfr]
    dsimp only
    refine ⟨?_, ?_, ?_⟩
    · intro ev h
      rcases mem_dropLast_cons h with rfl | h2
      · rfl
      · rcases mem_dropLast_append h2 with h3 | h4
        · exact (copyFilesLoop_failfast cfg company O d files c).2.1 c2 ds hfr ev h3
        · exact ih.1 ev h4
    · intro c3 ds3 hok ev hmem
      cases hdr : (copyFoldersLoop cfg company O d ch c2).2 with
      | error e2 =>
        rw [hdr] at hok
        dsimp only at hok
        cases hok
      | ok p =>
        obtain ⟨cc, dd⟩ := p
        rcases List.mem_cons.1 hmem with rfl | h2
        · rfl
        · rcases List.mem_append.1 h2 with h3 | h4
          · exact (copyFilesLoop_failfast cfg company O d files c).2.1 c2 ds hfr ev h3
          · exact ih.2.1 cc dd hdr ev h4
    · intro e' he'
      cases hdr : (copyFoldersLoop cfg company O d ch c2).2 with
      | error e2 =>
        rw [hdr] at he'
        dsimp only at he'
        cases he'
        exact ih.2.2 _ hdr
      | ok p =>
        obtain ⟨cc, dd⟩ := p
        rw [hdr] at he'
        dsimp only at he'
        cases he'
  · intro d c
    simp only [copyFoldersLoop]
    refine ⟨?_, ?_, ?_⟩
    · intro ev h; simp at h
    · intro c2 ds _ ev h; simp at h
    · intro e he; cases he
  · intro d c rest ctr hcond s hs
    simp only [copyFoldersLoop, hcond, hs, if_pos]
    refine ⟨?_, ?_, ?_⟩
    · intro ev h; simp at h
    · intro c2 ds hok; cases hok
    · intro e he
      cases he
      exact append_ne_empty _ _ (append_ne_empty _ _ (append_ne_empty _ _ (by decide)))
  · intro d c rest ctr hcond hcr nid sub e hsub ih
    simp only [copyFoldersLoop, hcond, hcr, if_pos]
    rw [hsub]
    dsimp only
    refine ⟨?_, ?_, ?_⟩
    · intro ev h
      rcases mem_dropLast_cons h with rfl | h2
      · rfl
      · exact ih.1 ev h2
    · intro c2 ds hok; cases hok
    · intro e' he'
      cases he'
      exact ih.2.2 _ hsub
  · intro d c rest ctr hcond hcr nid sub c2 ds hsub ih1 ih2
    simp only [copyFoldersLoop, hcond, hcr, if_pos]
    rw [hsub]
    dsimp only
    refine ⟨?_, ?_, ?_⟩
    · intro ev h
      rcases mem_dropLast_cons h with rfl | h2
      · rfl
      · rcases mem_dropLast_append h2 with h3 | h4
        · exact ih1.2.1 c2 ds hsub ev h3
        · exact ih2.1 ev h4
    · intro c3 ds3 hok ev hmem
      cases hrr : (copyFoldersLoop cfg company O d rest c2).2 with
      | error e2 =>
        rw [hrr] at hok
        dsimp only at hok
        cases hok
      | ok p =>
        obtain ⟨cc, dd⟩ := p
        rcases List.mem_cons.1 hmem with rfl | h2
        · rfl
        · rcases List.mem_append.1 h2 with h3 | h4
          · exact ih1.2.1 c2 ds hsub ev h3
          · exact ih2.2.1 cc dd hrr ev h4
    · intro e' he'
      cases hrr : (copyFoldersLoop cfg company O d rest c2).2 with
      | error e2 =>
        rw [hrr] at he'
        dsimp only at he'
        cases he'
        exact ih2.2.2 _ hrr
      | ok p =>
        obtain ⟨cc, dd⟩ := p
        rw [hrr] at he'
        dsimp only at he'
        cases he'
  · intro d c rest ctr hcond ih
    rw [copyFoldersLoop]
    rw [if_neg hcond]
    exact ih

/-- C3: fail-fast.  In every run, every remote call before the last one in
the trace succeeded (no call is issued after a failure is observed), and
if any issued remote call failed then the run's result maps `success` to
`False` and carries a non-empty error message — the thrown error is
converted to a result dict only at the outermost boundary. -/
theorem fail_fast_single_failure (cfg : Config) (O : Oracle) (tmpl : TNode) (org : String) :
    (∀ ev ∈ (create_client_folder_structure cfg O tmpl org).1.dropLast, evOk ev = true)
    ∧ (∀ ev ∈ (create_client_folder_structure cfg O tmpl org).1, evOk ev = false →
        dictGet "success" (create_client_folder_structure cfg O tmpl org).2
            = some (JVal.b false)
        ∧ ∃ e, dictGet "error" (create_client_folder_structure cfg O tmpl org).2
            = some (JVal.s e) ∧ e ≠ "") := by
  unfold create_client_folder_structure
  dsimp only
  cases hm : cfgGet cfg.main_folder_suffix "main_folder_suffix" with
  | error e =>
    refine ⟨?_, ?_⟩
    · intro ev h; simp at h
    · intro ev h; simp at h
  | ok sfx =>
    dsimp only
    cases hd : cfgGet cfg.destination_folder_id "destination_folder_id" with
    | error e =>
      refine ⟨?_, ?_⟩
      · intro ev h; simp at h
      · intro ev h; simp at h
    | ok destId =>
      dsimp only
      cases ht : cfgGet cfg.template_folder_id "template_folder_id" with
      | error e =>
        refine ⟨?_, ?_⟩
        · intro ev h; simp at h
        · intro ev h; simp at h
      | ok tid =>
        dsimp only
        cases hc : O.createErr (org ++ sfx) destId with
        | some e =>
          dsimp only
          refine ⟨?_, ?_⟩
          · intro ev h; simp at h
          · intro ev h hfalse
            refine ⟨rfl, ⟨_, rfl, ?_⟩⟩
            exact append_ne_empty _ _ (append_ne_empty _ _ (append_ne_empty _ _ (by decide)))
        | none =>
          dsimp only
          refine ⟨?_, ?_⟩
          · intro ev h
            rcases mem_dropLast_cons h with rfl | h2
            · rfl
            · exact (copyContents_failfast cfg org O tmpl (O.newId 0) 1).1 ev h2
          · intro ev hmem hfalse
            rcases List.mem_cons.1 hmem with rfl | h2
            · cases hfalse
            · cases hr : (copyContents cfg org O tmpl (O.newId 0) 1).2 with
              | error e =>
                refine ⟨rfl, ⟨e, rfl, ?_⟩⟩
                exact (copyContents_failfast cfg org O tmpl (O.newId 0) 1).2.2 e hr
              | ok p =>
                obtain ⟨cc, dd⟩ := p
                have := (copyContents_failfast cfg org O tmpl (O.newId 0) 1).2.1 cc dd hr ev h2
                rw [this] at hfalse
                cases hfalse

/-- Witness for C3 at a concrete run where the template listing fails. -/
theorem fail_fast_single_failure_witness :
    Ev.list "TPL" (some "permission denied")
        ∈ (create_client_folder_structure cfgA permOracle tmplA "Acme").1
    ∧ evOk (Ev.list "TPL" (some "permission denied")) = false
    ∧ dictGet "success" (create_client_folder_structure cfgA permOracle tmplA "Acme").2
        = some (JVal.b false)
    ∧ ∃ e, dictGet "error" (create_client_folder_structure cfgA permOracle tmplA "Acme").2
        = some (JVal.s e) ∧ e ≠ "" := by
  have hmem : Ev.list "TPL" (some "permission denied")
      ∈ (create_client_folder_structure cfgA permOracle tmplA "Acme").1 :=
    List.Mem.tail _ (List.Mem.head _)
  have h := (fail_fast_single_failure cfgA permOracle tmplA "Acme").2 _ hmem rfl
  exact ⟨hmem, rfl, h.1, h.2⟩

/-- C4 counterexample: on a permission failure of the template listing,
the code's error message is `Failed to list folder contents: <cause>`; it
contains the word `list` but does NOT contain the template folder's
identifier (`TPL` here), contradicting the claim. -/
theorem list_error_lacks_folder_id :
    dictGet "success" (create_client_folder_structure cfgA permOracle tmplA "Acme").2
        = some (JVal.b false)
    ∧ dictGet "error" (create_client_folder_structure cfgA permOracle tmplA "Acme").2
        = some (JVal.s "Failed to list folder contents: permission denied")
    ∧ cfgA.template_folder_id = some "TPL"
    ∧ tmplA.id = "TPL"
    ∧ strContainsB "Failed to list folder contents: permission denied" "list" = true
    ∧ strContainsB "Failed to list folder contents: permission denied" "TPL" = false := by
  refine ⟨rfl, rfl, rfl, rfl, ?_, ?_⟩ <;> decide

/-- C4 amended: when listing the template folder fails, the run returns
the failure dict whose error message is the wrapped cause
`Failed to list folder contents: <cause>` — it contains the word `list`,
but not necessarily the template folder's identifier. -/
theorem list_failure_reported (cfg : Config) (O : Oracle) (tmpl : TNode)
    (org sfx destId tid e : String)
    (hm : cfg.main_folder_suffix = some sfx)
    (hd : cfg.destination_folder_id = some destId)
    (ht : cfg.template_folder_id = some tid)
    (hc : O.createErr (org ++ sfx) destId = none)
    (hl : O.listErr tmpl.id = some e) :
    (create_client_folder_structure cfg O tmpl org).2
        = failDict org ("Failed to list folder contents: " ++ e)
    ∧ strContainsB ("Failed to list folder contents: " ++ e) "list" = true := by
  constructor
  · unfold create_client_folder_structure
    rw [hm, hd, ht]
    simp only [cfgGet]
    rw [hc]
    dsimp only
    obtain ⟨i, nm, mi, tr, ch⟩ := tmpl
    simp only [TNode.id] at hl
    simp only [copyContents, hl]
  · apply decide_eq_true
    have h1 : ("list" : String).data <:+: ("Failed to list folder contents: " : String).data := by
      decide
    refine h1.trans ⟨[], e.data, ?_⟩
    simp [String.data_append]

/-- Witness for the amended C4. -/
theorem list_failure_reported_witness :
    cfgA.main_folder_suffix = some " - Client Folder"
    ∧ permOracle.listErr tmplA.id = some "permission denied"
    ∧ (create_client_folder_structure cfgA permOracle tmplA "Acme").2
        = failDict "Acme" ("Failed to list folder contents: " ++ "permission denied")
    ∧ strContainsB ("Failed to list folder contents: " ++ "permission denied") "list" = true := by
  have h := list_failure_reported cfgA permOracle tmplA "Acme" " - Client Folder"
    "DEST" "TPL" "permission denied" rfl rfl rfl rfl rfl
  exact ⟨rfl, rfl, h.1, h.2⟩

/-- C5 counterexample: with `user_list_original_name` missing from the
config, the run does NOT fail at startup: it issues two remote calls (the
main-folder creation and the template listing) before the `KeyError`
surfaces from inside the file-copy loop, mid-recursion. -/
theorem missing_config_key_fails_mid_run :
    cfgNoUln.user_list_original_name = none
    ∧ (create_client_folder_structure cfgNoUln okOracle tmplA "Acme").1
        = [Ev.create "Acme - Client Folder" "DEST" (Except.ok "N0"), Ev.list "TPL" none]
    ∧ (create_client_folder_structure cfgNoUln okOracle tmplA "Acme").2
        = failDict "Acme" "'user_list_original_name'" :=
  ⟨rfl, rfl, rfl⟩

/-- C5 amended: required fields are not validated eagerly at construction.
The three keys read at the top of `create_client_folder_structure`
(`main_folder_suffix`, `destination_folder_id`, `template_folder_id`) do
fail before any remote call when missing, but `user_list_original_name`
and `user_list_suffix` are only read inside the file-copy loop, so their
absence surfaces mid-recursion (see the counterexample). -/
theorem early_config_keys_fail_before_calls (cfg : Config) (O : Oracle) (tmpl : TNode)
    (org : String) :
    (cfg.main_folder_suffix = none →
      create_client_folder_structure cfg O tmpl org
        = ([], failDict org "'main_folder_suffix'"))
    ∧ (∀ sfx, cfg.main_folder_suffix = some sfx → cfg.destination_folder_id = none →
      create_client_folder_structure cfg O tmpl org
        = ([], failDict org "'destination_folder_id'"))
    ∧ (∀ sfx d, cfg.main_folder_suffix = some sfx → cfg.destination_folder_id = some d →
      cfg.template_folder_id = none →
      create_client_folder_structure cfg O tmpl org
        = ([], failDict org "'template_folder_id'")) := by
  refine ⟨?_, ?_, ?_⟩
  · intro h
    unfold create_client_folder_structure
    rw [h]
    rfl
  · intro sfx h1 h2
    unfold create_client_folder_structure
    rw [h1, h2]
    rfl
  · intro sfx d h1 h2 h3
    unfold create_client_folder_structure
    rw [h1, h2, h3]
    rfl

/-- Witness for the amended C5: a missing `main_folder_suffix` fails with
no remote call issued. -/
theorem early_config_keys_fail_before_calls_witness :
    cfgNoMfs.main_folder_suffix = none
    ∧ create_client_folder_structure cfgNoMfs okOracle tmplA "Acme"
        = ([], failDict "Acme" "'main_folder_suffix'") :=
  ⟨rfl, (early_config_keys_fail_before_calls cfgNoMfs okOracle tmplA "Acme").1 rfl⟩

theorem parentsOkB_mono : ∀ (l : List Ev) (S T : List String), (∀ x ∈ S, x ∈ T) →
    parentsOkB S l = true → parentsOkB T l = true := by
  intro l
  induction l with
  | nil => intro S T _ _; rfl
  | cons ev rest ih =>
    intro S T hs h
    rw [parentsOkB] at h ⊢
    rw [Bool.and_eq_true] at h ⊢
    obtain ⟨h1, h2⟩ := h
    constructor
    · cases hp : evParent ev with
      | none => rfl
      | some p =>
        rw [hp] at h1
        dsimp only at h1 ⊢
        have hmem : p ∈ S := by simpa using h1
        simpa using hs p hmem
    · refine ih _ _ ?_ h2
      intro x hx
      rcases List.mem_append.1 hx with hx1 | hx2
      · exact List.mem_append.2 (Or.inl (hs x hx1))
      · exact List.mem_append.2 (Or.inr hx2)

theorem parentsOkB_append : ∀ (a b : List Ev) (S : List String),
    parentsOkB S (a ++ b)
      = (parentsOkB S a && parentsOkB (S ++ newIdsL a) b) := by
  intro a
  induction a with
  | nil => intro b S; simp [parentsOkB, newIdsL]
  | cons ev rest ih =>
    intro b S
    simp only [List.cons_append, parentsOkB, newIdsL, ih, List.append_assoc, Bool.and_assoc,
      List.append_eq]

theorem copyFilesLoop_newIds (cfg : Config) (company : String) (O : Oracle) (dstId : String) :
    ∀ (files : List Item) (ctr : Nat),
      newIdsL (copyFilesLoop cfg company O dstId files ctr).1 = [] := by
  intro files
  induction files with
  | nil => intro ctr; rfl
  | cons f rest ih =>
    intro ctr
    rw [copyFilesLoop]
    cases hg : cfgGet cfg.user_list_original_name "user_list_original_name" with
    | error e => rfl
    | ok uln =>
      dsimp only
      cases hn : (if (f.name == uln) = true then
            match cfgGet cfg.user_list_suffix "user_list_suffix" with
            | .error e => Except.error e
            | .ok suf => Except.ok (company ++ suf)
          else Except.ok f.name : Except String String) with
      | error e => rfl
      | ok newName =>
        dsimp only
        cases hc : O.copyErr f.id newName dstId with
        | none =>
          dsimp only
          rw [newIdsL]
          rw [ih (ctr + 1)]
          rfl
        | some e => rfl

theorem copyFilesLoop_parents (cfg : Config) (company : String) (O : Oracle) (dstId : String) :
    ∀ (files : List Item) (ctr : Nat) (S : List String), dstId ∈ S →
      parentsOkB S (copyFilesLoop cfg company O dstId files ctr).1 = true := by
  intro files
  induction files with
  | nil => intro ctr S _; rfl
  | cons f rest ih =>
    intro ctr S hS
    rw [copyFilesLoop]
    cases hg : cfgGet cfg.user_list_original_name "user_list_original_name" with
    | error e => rfl
    | ok uln =>
      dsimp only
      cases hn : (if (f.name == uln) = true then
            match cfgGet cfg.user_list_suffix "user_list_suffix" with
            | .error e => Except.error e
            | .ok suf => Except.ok (company ++ suf)
          else Except.ok f.name : Except String String) with
      | error e => rfl
      | ok newName =>
        dsimp only
        cases hc : O.copyErr f.id newName dstId with
        | none =>
          dsimp only
          rw [parentsOkB, Bool.and_eq_true]
          constructor
          · simpa [evParent] using hS
          · rw [evNewIds, List.append_nil]
            exact ih (ctr + 1) S hS
        | some e =>
          rw [parentsOkB, Bool.and_eq_true]
          constructor
          · simpa [evParent] using hS
          · rfl

theorem copyContents_parents (cfg : Config) (company : String) (O : Oracle)
    (t : TNode) (dstId : String) (ctr : Nat) :
    ∀ S, dstId ∈ S → parentsOkB S (copyContents cfg company O t dstId ctr).1 = true := by
  refine copyContents.induct cfg company O
    (fun t d c => ∀ S, d ∈ S → parentsOkB S (copyContents cfg company O t d c).1 = true)
    (fun d l c => ∀ S, d ∈ S → parentsOkB S (copyFoldersLoop cfg company O d l c).1 = true)
    ?_ ?_ ?_ ?_ ?_ ?_ ?_ ?_ t dstId ctr
  · intro i name mime tr ch d c s hs S hS
    simp [copyContents, hs, parentsOkB, evParent, evNewIds]
  · intro i name mime tr ch d c hl files fr e hfr S hS
    simp only [copyContents, hl]
    rw [hfr]
    dsimp only
    rw [parentsOkB, Bool.and_eq_true]
    refine ⟨rfl, ?_⟩
    rw [evNewIds, List.append_nil]
    exact copyFilesLoop_parents cfg company O d files c S hS
  · intro i name mime tr ch d c hl files fr c2 ds hfr ih S hS
    simp only [copyContents, hl]
    rw [hfr]
    dsimp only
    rw [parentsOkB, Bool.and_eq_true]
    refine ⟨rfl, ?_⟩
    rw [evNewIds, List.append_nil, parentsOkB_append, Bool.and_eq_true]
    refine ⟨copyFilesLoop_parents cfg company O d files c S hS, ?_⟩
    rw [copyFilesLoop_newIds cfg company O d files c, List.append_nil]
    exact ih S hS
  · intro d c S hS; rfl
  · intro d c rest ctr hcond s hs S hS
    simp only [copyFoldersLoop, hcond, hs, if_pos]
    rw [parentsOkB, Bool.and_eq_true]
    constructor
    · simpa [evParent] using hS
    · rfl
  · intro d c rest ctr hcond hcr nid sub e hsub ih S hS
    simp only [copyFoldersLoop, hcond, hcr, if_pos]
    rw [hsub]
    dsimp only
    rw [parentsOkB, Bool.and_eq_true]
    constructor
    · simpa [evParent] using hS
    · rw [evNewIds]
      exact ih (S ++ [O.newId ctr]) (List.mem_append.2 (Or.inr (List.mem_singleton.2 rfl)))
  · intro d c rest ctr hcond hcr nid sub c2 ds hsub ih1 ih2 S hS
    simp only [copyFoldersLoop, hcond, hcr, if_pos]
    rw [hsub]
    dsimp only
    rw [parentsOkB, Bool.and_eq_true]
    constructor
    · simpa [evParent] using hS
    · rw [evNewIds, parentsOkB_append, Bool.and_eq_true]
      constructor
      · exact ih1 (S ++ [O.newId ctr]) (List.mem_append.2 (Or.inr (List.mem_singleton.2 rfl)))
      · refine ih2 _ ?_
        exact List.mem_append.2 (Or.inl (List.mem_append.2 (Or.inl hS)))
  · intro d c rest ctr hcond ih S hS
    rw [copyFoldersLoop]
    rw [if_neg hcond]
    exact ih S hS



/-- C6: in every run, every remote operation that places an object under a
destination parent uses either the configured destination parent id or an
id returned by an EARLIER successful create-folder call of the same run
(`parentsOkB` scans the trace left to right, growing the available-parent
set only with ids already returned): every destination folder is created
before anything is placed inside it, and each recursive call's destination
parent is the id just returned by the corresponding create-folder call. -/
theorem parent_exists_before_children (cfg : Config) (O : Oracle) (tmpl : TNode)
    (org destId : String) (hd : cfg.destination_folder_id = some destId) :
    parentsOkB [destId] (create_client_folder_structure cfg O tmpl org).1 = true := by
  unfold create_client_folder_structure
  dsimp only
  cases hm : cfg.main_folder_suffix with
  | none => rfl
  | some sfx =>
    rw [hd]
    cases ht : cfg.template_folder_id with
    | none => rfl
    | some tid =>
      dsimp only [cfgGet]
      cases hc : O.createErr (org ++ sfx) destId with
      | some e =>
        simp [parentsOkB, evParent, evNewIds]
      | none =>
        dsimp only
        rw [parentsOkB, Bool.and_eq_true]
        constructor
        · simp [evParent]
        · rw [evNewIds]
          exact copyContents_parents cfg org O tmpl (O.newId 0) 1
            ([destId] ++ [O.newId 0]) (List.mem_append.2 (Or.inr (List.mem_singleton.2 rfl)))

/-- Witness for C6 on the scenario run. -/
theorem parent_exists_before_children_witness :
    cfgA.destination_folder_id = some "DEST"
    ∧ parentsOkB ["DEST"] (create_client_folder_structure cfgA okOracle tmplA "Acme").1
        = true :=
  ⟨rfl, parent_exists_before_children cfgA okOracle tmplA "Acme" "DEST" rfl⟩

theorem copyFilesLoop_len (cfg : Config) (company : String) (O : Oracle) (dstId : String) :
    ∀ (files : List Item) (ctr : Nat),
      (copyFilesLoop cfg company O dstId files ctr).1.length ≤ files.length := by
  intro files
  induction files with
  | nil => intro ctr; simp [copyFilesLoop]
  | cons f rest ih =>
    intro ctr
    rw [copyFilesLoop]
    cases hg : cfgGet cfg.user_list_original_name "user_list_original_name" with
    | error e => exact Nat.zero_le _
    | ok uln =>
      dsimp only
      cases hn : (if (f.name == uln) = true then
            match cfgGet cfg.user_list_suffix "user_list_suffix" with
            | .error e => Except.error e
            | .ok suf => Except.ok (company ++ suf)
          else Except.ok f.name : Except String String) with
      | error e => exact Nat.zero_le _
      | ok newName =>
        dsimp only
        cases hc : O.copyErr f.id newName dstId with
        | none =>
          dsimp only
          simp only [List.length_cons]
          have := ih (ctr + 1)
          omega
        | some e => exact Nat.succ_le_succ (Nat.zero_le _)

theorem files_partition_len (ch : List TNode) :
    ((partitionItems (listedItems ch)).1).length ≤ ch.length := by
  rw [partitionItems_eq]
  refine le_trans (List.length_filter_le _ _) ?_
  simp only [listedItems, List.length_map]
  exact List.length_filter_le _ _

theorem copyContents_calls_bounded (cfg : Config) (company : String) (O : Oracle)
    (t : TNode) (dstId : String) (ctr : Nat) :
    (copyContents cfg company O t dstId ctr).1.length ≤ evBound t := by
  refine copyContents.induct cfg company O
    (fun t d c => (copyContents cfg company O t d c).1.length ≤ evBound t)
    (fun d l c => (copyFoldersLoop cfg company O d l c).1.length ≤ evBoundL l)
    ?_ ?_ ?_ ?_ ?_ ?_ ?_ ?_ t dstId ctr
  · intro i name mime tr ch d c s hs
    simp only [copyContents, hs]
    rw [evBound]
    simp only [List.length_singleton]
    omega
  · intro i name mime tr ch d c hl files fr e hfr
    simp only [copyContents, hl]
    rw [hfr]
    dsimp only
    rw [evBound]
    have h1 : (copyFilesLoop cfg company O d (partitionItems (listedItems ch)).1 c).1.length
        ≤ ((partitionItems (listedItems ch)).1).length :=
      copyFilesLoop_len cfg company O d (partitionItems (listedItems ch)).1 c
    have h2 : ((partitionItems (listedItems ch)).1).length ≤ ch.length :=
      files_partition_len ch
    simp only [List.length_cons]
    omega
  · intro i name mime tr ch d c hl files fr c2 ds hfr ih
    simp only [copyContents, hl]
    rw [hfr]
    dsimp only
    rw [evBound]
    have h1 : (copyFilesLoop cfg company O d (partitionItems (listedItems ch)).1 c).1.length
        ≤ ((partitionItems (listedItems ch)).1).length :=
      copyFilesLoop_len cfg company O d (partitionItems (listedItems ch)).1 c
    have h2 : ((partitionItems (listedItems ch)).1).length ≤ ch.length :=
      files_partition_len ch
    simp only [List.length_cons, List.length_append]
    omega
  · intro d c
    simp [copyFoldersLoop, evBoundL]
  · intro d c rest ctr hcond s hs
    simp only [copyFoldersLoop, hcond, hs, if_pos]
    rw [evBoundL]
    simp only [List.length_singleton]
    omega
  · intro d c rest ctr hcond hcr nid sub e hsub ih
    simp only [copyFoldersLoop, hcond, hcr, if_pos]
    rw [hsub]
    dsimp only
    rw [evBoundL]
    have ih' : (copyContents cfg company O c (O.newId ctr) (ctr + 1)).1.length ≤ evBound c := ih
    simp only [List.length_cons]
    omega
  · intro d c rest ctr hcond hcr nid sub c2 ds hsub ih1 ih2
    simp only [copyFoldersLoop, hcond, hcr, if_pos]
    rw [hsub]
    dsimp only
    rw [evBoundL]
    have ih1' : (copyContents cfg company O c (O.newId ctr) (ctr + 1)).1.length ≤ evBound c := ih1
    simp only [List.length_cons, List.length_append]
    omega
  · intro d c rest ctr hcond ih
    rw [copyFoldersLoop]
    rw [if_neg hcond]
    refine le_trans ih ?_
    rw [evBoundL]
    omega

/-- C7: termination of the recursive copy.  `copyContents` is a total
(structurally recursive) function of the finite acyclic source tree, and
every run of `create_client_folder_structure` issues at most
`1 + evBound tmpl` remote calls, a bound strictly decreasing with the
subtree at each recursive call. -/
theorem replication_calls_bounded (cfg : Config) (O : Oracle) (tmpl : TNode) (org : String) :
    (create_client_folder_structure cfg O tmpl org).1.length ≤ 1 + evBound tmpl := by
  unfold create_client_folder_structure
  dsimp only
  cases hm : cfgGet cfg.main_folder_suffix "main_folder_suffix" with
  | error e => simp
  | ok sfx =>
    dsimp only
    cases hd : cfgGet cfg.destination_folder_id "destination_folder_id" with
    | error e => simp
    | ok destId =>
      dsimp only
      cases ht : cfgGet cfg.template_folder_id "template_folder_id" with
      | error e => simp
      | ok tid =>
        dsimp only
        cases hc : O.createErr (org ++ sfx) destId with
        | some e => simp
        | none =>
          dsimp only
          simp only [List.length_cons]
          have := copyContents_calls_bounded cfg org O tmpl (O.newId 0) 1
          omega



theorem copyFilesLoop_parentIds (cfg : Config) (company : String) (O : Oracle) (dstId : String) :
    ∀ (files : List Item) (ctr : Nat) (ev : Ev),
      ev ∈ (copyFilesLoop cfg company O dstId files ctr).1 →
      ∀ p, evParent ev = some p → p = dstId := by
  intro files
  induction files with
  | nil =>
    intro ctr ev h
    simp [copyFilesLoop] at h
  | cons f rest ih =>
    intro ctr ev hmem
    rw [copyFilesLoop] at hmem
    cases hg : cfgGet cfg.user_list_original_name "user_list_original_name" with
    | error e => rw [hg] at hmem; simp at hmem
    | ok uln =>
      rw [hg] at hmem
      dsimp only at hmem
      cases hn : (if (f.name == uln) = true then
            match cfgGet cfg.user_list_suffix "user_list_suffix" with
            | .error e => Except.error e
            | .ok suf => Except.ok (company ++ suf)
          else Except.ok f.name : Except String String) with
      | error e => rw [hn] at hmem; simp at hmem
      | ok newName =>
        rw [hn] at hmem
        dsimp only at hmem
        cases hc : O.copyErr f.id newName dstId with
        | none =>
          rw [hc] at hmem
          dsimp only at hmem
          rcases List.mem_cons.1 hmem with rfl | h2
          · intro p hp
            simp only [evParent, Option.some.injEq] at hp
            exact hp.symm
          · exact ih (ctr + 1) ev h2
        | some e =>
          rw [hc] at hmem
          simp only [List.mem_singleton] at hmem
          subst hmem
          intro p hp
          simp only [evParent, Option.some.injEq] at hp
          exact hp.symm

theorem copyContents_parentIds (cfg : Config) (company : String) (O : Oracle)
    (t : TNode) (dstId : String) (ctr : Nat) :
    ∀ ev ∈ (copyContents cfg company O t dstId ctr).1,
      ∀ p, evParent ev = some p → p = dstId ∨ ∃ k, p = O.newId k := by
  refine copyContents.induct cfg company O
    (fun t d c => ∀ ev ∈ (copyContents cfg company O t d c).1,
      ∀ p, evParent ev = some p → p = d ∨ ∃ k, p = O.newId k)
    (fun d l c => ∀ ev ∈ (copyFoldersLoop cfg company O d l c).1,
      ∀ p, evParent ev = some p → p = d ∨ ∃ k, p = O.newId k)
    ?_ ?_ ?_ ?_ ?_ ?_ ?_ ?_ t dstId ctr
  · intro i name mime tr ch d c s hs ev hmem
    simp [copyContents, hs] at hmem
    subst hmem
    intro p hp
    simp [evParent] at hp
  · intro i name mime tr ch d c hl files fr e hfr ev hmem
    simp only [copyContents, hl] at hmem
    rw [hfr] at hmem
    dsimp only at hmem
    rcases List.mem_cons.1 hmem with rfl | h2
    · intro p hp; simp [evParent] at hp
    · intro p hp
      exact Or.inl (copyFilesLoop_parentIds cfg company O d files c ev h2 p hp)
  · intro i name mime tr ch d c hl files fr c2 ds hfr ih ev hmem
    simp only [copyContents, hl] at hmem
    rw [hfr] at hmem
    dsimp only at hmem
    rcases List.mem_cons.1 hmem with rfl | h2
    · intro p hp; simp [evParent] at hp
    · rcases List.mem_append.1 h2 with h3 | h4
      · intro p hp
        exact Or.inl (copyFilesLoop_parentIds cfg company O d files c ev h3 p hp)
      · exact ih ev h4
  · intro d c ev hmem
    simp [copyFoldersLoop] at hmem
  · intro d c rest ctr hcond s hs ev hmem
    simp [copyFoldersLoop, hcond, hs] at hmem
    subst hmem
    intro p hp
    simp only [evParent, Option.some.injEq] at hp
    exact Or.inl hp.symm
  · intro d c rest ctr hcond hcr nid sub e hsub ih ev hmem
    simp only [copyFoldersLoop, hcond, hcr, if_pos] at hmem
    rw [hsub] at hmem
    dsimp only at hmem
    rcases List.mem_cons.1 hmem with rfl | h2
    · intro p hp
      simp only [evParent, Option.some.injEq] at hp
      exact Or.inl hp.symm
    · intro p hp
      rcases ih ev h2 p hp with rfl | hk
      · exact Or.inr ⟨ctr, rfl⟩
      · exact Or.inr hk
  · intro d c rest ctr hcond hcr nid sub c2 ds hsub ih1 ih2 ev hmem
    simp only [copyFoldersLoop, hcond, hcr, if_pos] at hmem
    rw [hsub] at hmem
    dsimp only at hmem
    rcases List.mem_cons.1 hmem with rfl | h2
    · intro p hp
      simp only [evParent, Option.some.injEq] at hp
      exact Or.inl hp.symm
    · rcases List.mem_append.1 h2 with h3 | h4
      · intro p hp
        rcases ih1 ev h3 p hp with rfl | hk
        · exact Or.inr ⟨ctr, rfl⟩
        · exact Or.inr hk
      · exact ih2 ev h4
  · intro d c rest ctr hcond ih
    rw [copyFoldersLoop]
    rw [if_neg hcond]
    exact ih

/-- C8: an all-success run creates exactly one top-level folder directly
under the configured destination parent, named
`organization_name ++ main_folder_suffix`, copies the template's contents
into it (the rest of the trace is exactly the recursive copy rooted at the
new folder's id), and returns the success dict carrying that folder's id,
name, and the URL `https://drive.google.com/drive/folders/<id>`.
`hfresh` is the spec's freshness assumption on service-assigned ids. -/
theorem success_run_builds_main_folder (cfg : Config) (O : Oracle) (tmpl : TNode)
    (org sfx destId tid : String) (c2 : Nat) (ds : List DNode)
    (hm : cfg.main_folder_suffix = some sfx)
    (hd : cfg.destination_folder_id = some destId)
    (ht : cfg.template_folder_id = some tid)
    (hc : O.createErr (org ++ sfx) destId = none)
    (hok : (copyContents cfg org O tmpl (O.newId 0) 1).2 = .ok (c2, ds))
    (hfresh : ∀ n, O.newId n ≠ destId) :
    (create_client_folder_structure cfg O tmpl org).2
        = successDict org (org ++ sfx) (O.newId 0)
    ∧ dictGet "success" (create_client_folder_structure cfg O tmpl org).2
        = some (JVal.b true)
    ∧ dictGet "folder_id" (create_client_folder_structure cfg O tmpl org).2
        = some (JVal.s (O.newId 0))
    ∧ dictGet "folder_name" (create_client_folder_structure cfg O tmpl org).2
        = some (JVal.s (org ++ sfx))
    ∧ dictGet "folder_url" (create_client_folder_structure cfg O tmpl org).2
        = some (JVal.s ("https://drive.google.com/drive/folders/" ++ O.newId 0))
    ∧ (create_client_folder_structure cfg O tmpl org).1
        = Ev.create (org ++ sfx) destId (Except.ok (O.newId 0))
            :: (copyContents cfg org O tmpl (O.newId 0) 1).1
    ∧ (create_client_folder_structure cfg O tmpl org).1.countP (isCreateUnder destId) = 1 := by
  have hrun : create_client_folder_structure cfg O tmpl org
      = (Ev.create (org ++ sfx) destId (Except.ok (O.newId 0))
            :: (copyContents cfg org O tmpl (O.newId 0) 1).1,
         successDict org (org ++ sfx) (O.newId 0)) := by
    unfold create_client_folder_structure
    rw [hm, hd, ht]
    dsimp only [cfgGet]
    rw [hc]
    dsimp only
    rw [hok]
  rw [hrun]
  refine ⟨rfl, rfl, rfl, rfl, rfl, rfl, ?_⟩
  dsimp only
  rw [List.countP_cons]
  have h0 : List.countP (isCreateUnder destId)
      (copyContents cfg org O tmpl (O.newId 0) 1).1 = 0 := by
    apply List.countP_eq_zero.2
    intro ev hmem
    cases ev with
    | list fid err => simp [isCreateUnder]
    | copy a b c d e => simp [isCreateUnder]
    | create n p r =>
      have hp := copyContents_parentIds cfg org O tmpl (O.newId 0) 1
        (Ev.create n p r) hmem p rfl
      simp only [isCreateUnder]
      have hne : p ≠ destId := by
        rcases hp with rfl | ⟨k, rfl⟩
        · exact hfresh 0
        · exact hfresh k
      simp [hne]
  rw [h0]
  simp [isCreateUnder]

theorem okOracle_fresh : ∀ n, okOracle.newId n ≠ "DEST" := by
  intro n h
  have hd := congrArg String.data h
  rw [show okOracle.newId n = "N" ++ toString n from rfl, String.data_append] at hd
  have h1 : ('N' : Char) ∈ ("DEST" : String).data := by
    rw [← hd]
    exact List.mem_append.2 (Or.inl (List.mem_singleton.2 rfl))
  revert h1
  decide

/-- Witness for C8 on the scenario run. -/
theorem success_run_builds_main_folder_witness :
    (∀ n, okOracle.newId n ≠ "DEST")
    ∧ (create_client_folder_structure cfgA okOracle tmplA "Acme").2
        = successDict "Acme" ("Acme" ++ " - Client Folder") (okOracle.newId 0)
    ∧ (create_client_folder_structure cfgA okOracle tmplA "Acme").1.countP
        (isCreateUnder "DEST") = 1 := by
  have h := success_run_builds_main_folder cfgA okOracle tmplA "Acme" " - Client Folder"
    "DEST" "TPL" 5
    [DNode.file "N1" "ReadMe.txt",
     DNode.file "N2" "Acme - Authorized Users.xlsx",
     DNode.folder "N3" "Forms" [DNode.file "N4" "FormA.pdf"]]
    rfl rfl rfl rfl rfl okOracle_fresh
  exact ⟨okOracle_fresh, h.1, h.2.2.2.2.2.2⟩

end GWS
